import Mathlib

/-!
Verification of the SQL-chain core (package `sqlchain`)

Shallow embedding of the per-database SQL-chain subsystem: height/key
codec, chain state, block ingestion (`CheckAndPushNewBlock`, `pushBlock`),
query pushes (`pushResponedQuery`, `pushAckedQuery`,
`VerifyAndPushAckedQuery`), local fetches (`FetchBlock`,
`FetchAckedQuery`) and startup recovery (`LoadChain`).

Machine integers are modelled as `Int` with explicit wrap-around
(`% 2^32`) where Go converts between `int32` and `uint32`; Go's `%` on
signed integers is truncated remainder and is rendered as `Int.tmod`.
Cryptographic verification outcomes (signature checks) are opaque `Bool`
fields on the artifacts, as the crypto layer is an external collaborator.
Helpers of the repository whose bodies are not part of the chain core
file (runtime scheduler, in-memory query index primitives, block-node
ancestor walk) are modelled from the specification and marked as such.
-/

namespace SQLChain

/-- Opaque 32-byte content hash, modelled as a natural number. -/
abbrev Hash := Nat

/-- Node identifier (`proto.NodeID`). -/
abbrev NodeID := Nat

/-! Section: Height/key codec (`heightToKey`, `keyToHeight`)

Source:
`heightToKey(h int32)` writes `uint32(h)` big-endian into 4 bytes;
`keyToHeight(k []byte)` reads them back as `int32(BigEndian.Uint32(k))`.
Bytes are modelled as naturals `< 256`. -/

/-- Big-endian 4-byte encoding of a `uint32` value (`binary.BigEndian.PutUint32`). -/
def putUint32BE (n : Nat) : List Nat :=
  [n / 2 ^ 24 % 256, n / 2 ^ 16 % 256, n / 2 ^ 8 % 256, n % 256]

/-- Big-endian 4-byte decoding to a `uint32` value (`binary.BigEndian.Uint32`). -/
def beUint32 : List Nat → Nat
  | [b0, b1, b2, b3] => ((b0 * 256 + b1) * 256 + b2) * 256 + b3
  | _ => 0

/-- Source `heightToKey`: Go's `uint32(h)` conversion of an `int32` is the
two's-complement wrap, i.e. `h` taken modulo `2^32` (euclidean). -/
def heightToKey (h : Int) : List Nat :=
  putUint32BE (h % (2 ^ 32 : Int)).toNat

/-- Source `keyToHeight`: Go's `int32(u)` conversion of a `uint32` value. -/
def keyToHeight (k : List Nat) : Int :=
  if beUint32 k < 2 ^ 31 then (beUint32 k : Int) else (beUint32 k : Int) - 2 ^ 32

/-- Strict lexicographic byte-string order, the order in which a bolt
bucket iterates its keys. -/
def lexLt : List Nat → List Nat → Bool
  | [], [] => false
  | [], _ :: _ => true
  | _ :: _, [] => false
  | a :: as, b :: bs => a < b || (a == b && lexLt as bs)

/-! Section: Errors

Semantic error kinds of the chain (`ErrInvalidBlock`, `ErrUnknownProducer`,
`ErrInvalidProducer`, `ErrParentNotFound`, `ErrQueryExpired`), plus
`incompatibleValue` for `bolt.ErrIncompatibleValue`, `verifyFailed` for a
failed signature check, `storeFailed` for a failed BlockStore transaction
and `decodeFailed` for a failed `UnmarshalBinary`. -/
inductive ChainErr where
  | invalidBlock
  | unknownProducer
  | invalidProducer
  | parentNotFound
  | queryExpired
  | incompatibleValue
  | verifyFailed
  | storeFailed
  | decodeFailed
deriving DecidableEq, Repr

/-! Section: Data model -/

/-- A block as relevant to ingestion: producer id, its own hash, the hash
of its parent, the header timestamp, the list of acknowledged-query hashes
it commits, and the outcomes of the two cryptographic checks
(`Block.Verify` and `SignedHeader.VerifyAsGenesis`), which belong to the
external crypto collaborator and are therefore opaque booleans here. -/
structure Block where
  producer : NodeID
  blockHash : Hash
  parentHash : Hash
  timestamp : Int
  queries : List Hash
  sigOk : Bool
  genesisOk : Bool
deriving DecidableEq, Repr

/-- Source `wt.SignedResponseHeader`: embedded request timestamp
(`resp.Request.Timestamp`), the response's own timestamp
(`resp.Timestamp`), header hash and signature-check outcome. -/
structure SignedResponseHeader where
  reqTimestamp : Int
  timestamp : Int
  headerHash : Hash
  sigOk : Bool
deriving DecidableEq, Repr

/-- Source `wt.SignedAckHeader`: embeds a `SignedResponseHeader`
(`ack.SignedResponseHeader()`), plus its own header hash and
signature-check outcome. -/
structure SignedAckHeader where
  resp : SignedResponseHeader
  headerHash : Hash
  sigOk : Bool
deriving DecidableEq, Repr

/-- Modelled from the spec: the `runtime` type is not part of the given
source file; §4.4 specifies it holds `genesis_time`, `period`,
`queryTTL`, the peer list, and the current head (`head_hash`,
`head_height`). -/
structure RunTime where
  genesisTime : Int
  period : Int
  queryTTL : Int
  headHeight : Int
  headHash : Hash
  peers : List NodeID
deriving DecidableEq, Repr

/-- Modelled from the spec: `runtime.getHeightFromTime`, §4.4
`height_from_time(t) = floor((t − genesis_time) / period)`; Go duration
division truncates toward zero, hence `Int.tdiv` (the two agree for
`t ≥ genesis_time`). -/
def heightFromTime (rt : RunTime) (t : Int) : Int :=
  Int.tdiv (t - rt.genesisTime) rt.period

/-- Modelled from the spec: `runtime.queryTimeIsExpired`, §4.4
`query_time_is_expired(t): true iff height_from_time(t) < head.height − queryTTL`. -/
def queryTimeIsExpired (rt : RunTime) (t : Int) : Bool :=
  heightFromTime rt t < rt.headHeight - rt.queryTTL

/-- Modelled from the spec: `kayak.Peers.Find` returns the index of the
server with the given node id, or reports it missing. -/
def findPeer : List NodeID → NodeID → Option Nat
  | [], _ => none
  | s :: rest, p => if s = p then some 0 else (findPeer rest p).map (· + 1)

/-! Section: In-memory QueryIndex (modelled from the spec, §4.3)

The `queryIndex` type is not part of the given source file.  §4.3: per
height, flat tables of responses and acks; `add_response` / `add_ack`
insert and duplicates collapse silently. -/

/-- Modelled from the spec: the in-memory `queryIndex`, as flat lists of
height-keyed responses and acks. -/
structure QueryIndex where
  resps : List (Int × SignedResponseHeader)
  acks : List (Int × SignedAckHeader)
deriving DecidableEq, Repr

/-- Modelled from the spec: `queryIndex.addResponse` — insert, duplicates
collapse silently. -/
def QueryIndex.addResponse (qi : QueryIndex) (h : Int) (r : SignedResponseHeader) :
    QueryIndex :=
  if (h, r) ∈ qi.resps then qi else { qi with resps := (h, r) :: qi.resps }

/-- Modelled from the spec: `queryIndex.addAck` — insert, duplicates
collapse silently. -/
def QueryIndex.addAck (qi : QueryIndex) (h : Int) (a : SignedAckHeader) :
    QueryIndex :=
  if (h, a) ∈ qi.acks then qi else { qi with acks := (h, a) :: qi.acks }

/-- Modelled from the spec: `queryIndex.getAck` returns the ack stored in
the memory index under the given height and header hash, if any. -/
def QueryIndex.getAck (qi : QueryIndex) (h : Int) (k : Hash) :
    Option SignedAckHeader :=
  (qi.acks.find? (fun p => p.1 == h && p.2.headerHash == k)).map (·.2)

/-! Section: On-disk BlockStore (bolt)

Buckets are association lists.  A value slot under a key either holds an
encoded artifact — `val (some a)` decodes to `a`, `val none` is a corrupt
encoding on which `UnmarshalBinary` fails — or is occupied by a nested
bucket (`subBucket`), in which case `bolt`'s `Put` on that key fails with
`ErrIncompatibleValue` and `Get` returns `nil`. -/

/-- Association-list lookup (bolt `Bucket.Get`). -/
def assocGet {α β : Type} [DecidableEq α] : List (α × β) → α → Option β
  | [], _ => none
  | (k', v) :: rest, k => if k' = k then some v else assocGet rest k

/-- Association-list overwrite-or-append (bolt `Bucket.Put` on a plain key). -/
def assocPut {α β : Type} [DecidableEq α] : List (α × β) → α → β → List (α × β)
  | [], k, v => [(k, v)]
  | (k', v') :: rest, k, v =>
    if k' = k then (k, v) :: rest else (k', v') :: assocPut rest k v

/-- A slot of the per-height ack-index bucket. -/
inductive ASlot where
  | val (enc : Option SignedAckHeader)
  | subBucket
deriving DecidableEq, Repr

/-- A slot of the per-height response-index bucket. -/
inductive RSlot where
  | val (enc : Option SignedResponseHeader)
  | subBucket
deriving DecidableEq, Repr

/-- One height namespace of the store (`height-index/<height-be32>/`):
its response-index and ack-index buckets. -/
structure HeightBucket where
  respIndex : List (Hash × RSlot)
  ackIndex : List (Hash × ASlot)
deriving DecidableEq, Repr

/-- The height-index part of the meta bucket: height (the be32 key,
kept as the height itself since `heightToKey` is injective per claim C8)
to its namespace. -/
structure BlockStore where
  heights : List (Int × HeightBucket)
deriving DecidableEq, Repr

/-- Source behavior of `bolt` `Put` into an ack-index bucket: fails with
`ErrIncompatibleValue` when the key is occupied by a nested bucket. -/
def ackPut (b : List (Hash × ASlot)) (k : Hash) (enc : Option SignedAckHeader) :
    Except ChainErr (List (Hash × ASlot)) :=
  match assocGet b k with
  | some .subBucket => .error .incompatibleValue
  | _ => .ok (assocPut b k (.val enc))

/-- Source behavior of `bolt` `Put` into a response-index bucket: fails with
`ErrIncompatibleValue` when the key is occupied by a nested bucket. -/
def respPut (b : List (Hash × RSlot)) (k : Hash) (enc : Option SignedResponseHeader) :
    Except ChainErr (List (Hash × RSlot)) :=
  match assocGet b k with
  | some .subBucket => .error .incompatibleValue
  | _ => .ok (assocPut b k (.val enc))

/-- Source `ensureHeight`: return the height namespace, creating it (with empty
sub-buckets) when absent, together with the store reflecting the
creation. -/
def ensureHeight (st : BlockStore) (h : Int) : BlockStore × HeightBucket :=
  match assocGet st.heights h with
  | some hb => (st, hb)
  | none =>
    (⟨assocPut st.heights h ⟨[], []⟩⟩, ⟨[], []⟩)

/-- Write back one height namespace of the store. -/
def setHeightBucket (st : BlockStore) (h : Int) (hb : HeightBucket) : BlockStore :=
  ⟨assocPut st.heights h hb⟩

/-- Whether the given ack is persisted under the ack-index of height `h`. -/
def ackOnDisk (st : BlockStore) (h : Int) (a : SignedAckHeader) : Bool :=
  match assocGet st.heights h with
  | none => false
  | some hb =>
    match assocGet hb.ackIndex a.headerHash with
    | some (.val (some a')) => a' == a
    | _ => false

/-- Whether the given response is persisted under the response-index of
height `h`. -/
def respOnDisk (st : BlockStore) (h : Int) (r : SignedResponseHeader) : Bool :=
  match assocGet st.heights h with
  | none => false
  | some hb =>
    match assocGet hb.respIndex r.headerHash with
    | some (.val (some r')) => r' == r
    | _ => false

/-- The slot currently occupying key `k` of the ack-index of height `h`. -/
def ackSlotAt (st : BlockStore) (h : Int) (k : Hash) : Option ASlot :=
  match assocGet st.heights h with
  | none => none
  | some hb => assocGet hb.ackIndex k

/-! Section: Query pushes (`Chain.pushResponedQuery`, `Chain.pushAckedQuery`,
`Chain.VerifyAndPushAckedQuery`)

The Go functions run a `bolt` `Update` transaction; when the transaction
function returns an error the transaction rolls back, so the result
carries the original store and query index on errors.  Both functions
perform the memory-index update inside the transaction, after the disk
`Put`.  Commit failure of a transaction whose function returned `nil` is
a `bolt`-internal condition and is not modelled. -/

/-- Result of a query push: Go error value plus resulting store and
memory index (the originals when the transaction rolled back). -/
structure PushRes where
  err : Option ChainErr
  st : BlockStore
  qi : QueryIndex
deriving DecidableEq, Repr

/-- Source `Chain.pushResponedQuery`: height from `resp.Request.Timestamp`;
ensure the height namespace; `Put` the encoded response; on `Put` error
return it (transaction rolled back, nothing changed); otherwise add the
response to the memory index and commit. -/
def pushResponedQuery (rt : RunTime) (st : BlockStore) (qi : QueryIndex)
    (resp : SignedResponseHeader) : PushRes :=
  let h := heightFromTime rt resp.reqTimestamp
  let p := ensureHeight st h
  match respPut p.2.respIndex resp.headerHash (some resp) with
  | .error e => ⟨some e, st, qi⟩
  | .ok newIdx =>
    ⟨none, setHeightBucket p.1 h { p.2 with respIndex := newIdx },
      qi.addResponse h resp⟩

/-- Source `Chain.pushAckedQuery`: height from the embedded response timestamp;
ensure the height namespace; `Put` the encoded ack, but — following the
source's `err != bolt.ErrIncompatibleValue` guard — treat
`ErrIncompatibleValue` as non-fatal and fall through to the memory-index
update; any other `Put` error rolls the transaction back. -/
def pushAckedQuery (rt : RunTime) (st : BlockStore) (qi : QueryIndex)
    (ack : SignedAckHeader) : PushRes :=
  let h := heightFromTime rt ack.resp.timestamp
  let p := ensureHeight st h
  match ackPut p.2.ackIndex ack.headerHash (some ack) with
  | .ok newIdx =>
    ⟨none, setHeightBucket p.1 h { p.2 with ackIndex := newIdx },
      qi.addAck h ack⟩
  | .error e =>
    if e = ChainErr.incompatibleValue then
      ⟨none, p.1, qi.addAck h ack⟩
    else
      ⟨some e, st, qi⟩

/-- Source `Chain.VerifyAndPushAckedQuery`: reject with `ErrQueryExpired` when
the embedded response timestamp is expired by TTL, then check the ack's
signature, then push. -/
def VerifyAndPushAckedQuery (rt : RunTime) (st : BlockStore) (qi : QueryIndex)
    (ack : SignedAckHeader) : PushRes :=
  if queryTimeIsExpired rt ack.resp.timestamp then
    ⟨some .queryExpired, st, qi⟩
  else if ack.sigOk = false then
    ⟨some .verifyFailed, st, qi⟩
  else
    pushAckedQuery rt st qi ack

/-! Section: Block ingestion (`Chain.pushBlock`, `Chain.CheckAndPushNewBlock`) -/

/-- The head update performed by a successful `Chain.pushBlock`: the new
head is the pushed block, at the height derived from its timestamp.
(`pushBlock` also persists state and block and updates the block/query
indices; only the runtime head matters to the claims below.) -/
def pushBlockHead (rt : RunTime) (b : Block) : RunTime :=
  { rt with
    headHeight := heightFromTime rt b.timestamp
    headHash := b.blockHash }

/-- Result of `Chain.CheckAndPushNewBlock`: Go error value, whether
`pushBlock` ran (the block was accepted), and the resulting runtime
head state. -/
structure CheckRes where
  err : Option ChainErr
  pushed : Bool
  rt : RunTime
deriving DecidableEq, Repr

/-- Source `Chain.CheckAndPushNewBlock`.  `queriesRes` abstracts the outcome of
the ack-presence loop over `block.Queries` (`checkAckFromBlock` +
`syncAckedQuery`, which involve RPC): `none` means every listed ack was
found or fetched, `some e` the error the loop returned.  `pushOk`
abstracts the `pushBlock` store transaction committing.  The rotation
index `next` is guarded against an empty peer list exactly as in the
source (`-1` when `total == 0`); Go's `%` on `int32` is `Int.tmod`. -/
def CheckAndPushNewBlock (rt : RunTime) (b : Block)
    (queriesRes : Option ChainErr) (pushOk : Bool) : CheckRes :=
  let height := heightFromTime rt b.timestamp
  let total : Int := rt.peers.length
  let next : Int := if total > 0 then Int.tmod (rt.headHeight + 1) total else -1
  if rt.headHeight = height ∧ rt.headHash = b.blockHash then
    ⟨none, false, rt⟩
  else if b.parentHash ≠ rt.headHash then
    ⟨some .invalidBlock, false, rt⟩
  else
    match findPeer rt.peers b.producer with
    | none => ⟨some .unknownProducer, false, rt⟩
    | some index =>
      if (index : Int) ≠ next then
        ⟨some .invalidProducer, false, rt⟩
      else
        match queriesRes with
        | some e => ⟨some e, false, rt⟩
        | none =>
          if b.sigOk = false then
            ⟨some .verifyFailed, false, rt⟩
          else if pushOk then
            ⟨none, true, pushBlockHead rt b⟩
          else
            ⟨some .storeFailed, false, rt⟩

/-! Section: Local fetches (`Chain.FetchAckedQuery`, `Chain.FetchBlock`) -/

/-- A zero ack standing for the garbage content of a freshly allocated
`&wt.SignedAckHeader{}` whose `UnmarshalBinary` failed. -/
def junkAck : SignedAckHeader := ⟨⟨0, 0, 0, false⟩, 0, false⟩

/-- Source loop body: the `db.View` loop body of `Chain.FetchAckedQuery`, iterated once per
loop step (`for i := height − queryTTL; i <= height; i++`).  The loop
variable `i` is not used by the body in the source — each iteration reads
the bucket at `heightToKey(height)` — so only the iteration count (the
fuel) remains.  Faithful to the source, `ack = dec` is assigned (and the
loop broken) only in the `err != nil` branch of `UnmarshalBinary`; a
successful decode just continues the loop. -/
def fetchLoop (st : BlockStore) (height : Int) (header : Hash) :
    Nat → Option SignedAckHeader × Option ChainErr
  | 0 => (none, none)
  | fuel + 1 =>
    match assocGet st.heights height with
    | none => fetchLoop st height header fuel
    | some hb =>
      match assocGet hb.ackIndex header with
      | some (.val enc) =>
        match enc with
        | none => (some junkAck, some .decodeFailed)
        | some _ => fetchLoop st height header fuel
      | _ => fetchLoop st height header fuel

/-- Source `Chain.FetchAckedQuery`: first try the memory index
(`qi.getAck`, modelled); on a miss run the `db.View` height loop, which
performs `queryTTL + 1` iterations. -/
def FetchAckedQuery (rt : RunTime) (st : BlockStore) (qi : QueryIndex)
    (height : Int) (header : Hash) :
    Option SignedAckHeader × Option ChainErr :=
  match qi.getAck height header with
  | some a => (some a, none)
  | none => fetchLoop st height header (rt.queryTTL + 1).toNat

/-- In-memory block node: height, hash and a parent back-reference
(`root` for the genesis node). -/
inductive BlockNode where
  | root (height : Int) (hash : Hash)
  | node (height : Int) (hash : Hash) (parent : BlockNode)
deriving DecidableEq, Repr

/-- Height of a block node. -/
def BlockNode.height : BlockNode → Int
  | .root h _ => h
  | .node h _ _ => h

/-- Hash of a block node. -/
def BlockNode.hash : BlockNode → Hash
  | .root _ k => k
  | .node _ k _ => k

/-- Modelled from the spec: `blockNode.ancestor` is not part of the given
source file; §4.2 — walk parent back-references from the node until a
node of the requested height is found or the root is passed. -/
def BlockNode.ancestor : BlockNode → Int → Option BlockNode
  | .root ht k, h => if ht = h then some (.root ht k) else none
  | .node ht k p, h => if ht = h then some (.node ht k p) else p.ancestor h

/-- Whether some node on the main-chain path from this node (inclusive)
has the given height. -/
def BlockNode.hasHeight : BlockNode → Int → Bool
  | .root ht _, h => ht == h
  | .node ht _ p, h => ht == h || p.hasHeight h

/-- Source `Chain.FetchBlock`: resolve the height to a main-chain node via the
head node's ancestor walk; when no node exists, return a nil block and a
nil error without touching the store.  Otherwise read the encoded block
under the node's index key (`some none` modelling a corrupt encoding). -/
def FetchBlock (headNode : BlockNode) (blockIndexDisk : List (Hash × Option Block))
    (height : Int) : Option Block × Option ChainErr :=
  match headNode.ancestor height with
  | none => (none, none)
  | some n =>
    match assocGet blockIndexDisk n.hash with
    | none => (none, none)
    | some none => (none, some .decodeFailed)
    | some (some b) => (some b, none)

/-! Section: Startup recovery (`LoadChain`) -/

/-- The block-index loop of `LoadChain` over the decoded blocks in bucket
order.  `bi` is the in-memory block index available to `lookupNode`; the
source constructs it empty (`newBlockIndex`) and the loop never inserts
the loaded nodes into it, and — faithful to the source — the fork branch
looks up `block.SignedHeader.BlockHash` (the block's own hash), not its
parent hash. -/
def loadBlocksLoop (bi : List (Hash × Unit)) :
    Option Block → List Block → Except ChainErr Unit
  | _, [] => .ok ()
  | none, b :: rest =>
    if b.genesisOk then loadBlocksLoop bi (some b) rest
    else .error .verifyFailed
  | some l, b :: rest =>
    if b.parentHash = l.blockHash then
      if b.sigOk then loadBlocksLoop bi (some b) rest
      else .error .verifyFailed
    else
      match assocGet bi b.blockHash with
      | none => .error .parentNotFound
      | some _ => loadBlocksLoop bi (some b) rest

/-- The block-recovery phase of `LoadChain`: the memory block index
starts empty and, as in the source loop, is never extended. -/
def loadChainBlocks (blocks : List Block) : Except ChainErr Unit :=
  loadBlocksLoop [] none blocks

/-! Section: Head-height monotonicity (runtime trace model)

All `pushBlock` calls of a running chain happen on the `processBlocks`
thread (its own-producer direct push and the `CheckAndPushNewBlock`
path), and only for a block whose timestamp-derived height `h` equals
`getNextTurn() − 1` at the branch test; the head is written by no other
thread, and `nextTurn` only grows (`setNextTurn`, called from
`runCurrentTurn`'s defer and from `sync`).  The check and the push are
therefore modelled as one atomic step. -/

/-- The runtime fields relevant to head monotonicity: the head height
and the turn counter.  Modelled from the spec for the initial value:
§4.4, `next_turn` is initially `head.height + 1`. -/
structure RtTurnSt where
  headHeight : Int
  nextTurn : Int
deriving DecidableEq, Repr

/-- One scheduler-visible transition of the chain runtime:
`push` is `processBlocks` pushing a block of height `nextTurn − 1`
(either directly for an own-producer block or through
`CheckAndPushNewBlock`; `pushBlock` then sets the head to that height);
`advance` is `setNextTurn`.  Failed pushes leave the state unchanged and
need no step. -/
inductive ChainStep : RtTurnSt → RtTurnSt → Prop
  | push (s : RtTurnSt) : ChainStep s ⟨s.nextTurn - 1, s.nextTurn⟩
  | advance (s : RtTurnSt) : ChainStep s ⟨s.headHeight, s.nextTurn + 1⟩

/-- The runtime invariant relating head and turn counter: the chain only
ever tries to extend past its head (`head.height ≤ next_turn − 1`);
established at construction where `next_turn = head.height + 1`. -/
def turnInv (s : RtTurnSt) : Prop :=
  s.headHeight ≤ s.nextTurn - 1

/-! Section: Concrete fixtures

Small concrete chain states and artifacts used to evaluate the
definitions at explicit inputs (genesis time 0, period 60 s, TTL 10,
three peers 1, 2, 3, head at height 2 with hash 100). -/

/-- Three-peer runtime, head at height 2, hash 100. -/
def rtA : RunTime := ⟨0, 60, 10, 2, 100, [1, 2, 3]⟩

/-- Runtime after an empty peer-list update. -/
def rtEmpty : RunTime := ⟨0, 60, 10, 2, 100, []⟩

/-- Empty in-memory query index. -/
def qi0 : QueryIndex := ⟨[], []⟩

/-- An ack whose embedded response timestamp 200 maps to height 3. -/
def ackA : SignedAckHeader := ⟨⟨0, 200, 7, true⟩, 7, true⟩

/-- Store holding a valid encoding of `ackA` under the ack-index of
height 3, key 7. -/
def stA1 : BlockStore := ⟨[(3, ⟨[], [(7, ASlot.val (some ackA))]⟩)]⟩

/-- An ack whose embedded response timestamp 0 maps to height 0. -/
def ackB : SignedAckHeader := ⟨⟨0, 0, 8, true⟩, 8, true⟩

/-- Store where the ack-index key 8 of height 0 is occupied by a nested
bucket, so a `Put` there fails with `ErrIncompatibleValue`. -/
def stB : BlockStore := ⟨[(0, ⟨[], [(8, ASlot.subBucket)]⟩)]⟩

/-- A response whose request timestamp 0 maps to height 0. -/
def respC : SignedResponseHeader := ⟨0, 5, 9, true⟩

/-- Store where the response-index key 9 of height 0 is occupied by a
nested bucket. -/
def stC : BlockStore := ⟨[(0, ⟨[(9, RSlot.subBucket)], []⟩)]⟩

/-- An ack whose embedded response timestamp maps to height −9, below
`headHeight − queryTTL = −8` of `rtA`. -/
def ackExp : SignedAckHeader := ⟨⟨0, -541, 50, true⟩, 51, true⟩

/-- A block extending the head of `rtA` at height 3, produced by peer 1
(rotation index 0 = (2 + 1) mod 3). -/
def bGood : Block := ⟨1, 101, 100, 180, [], true, false⟩

/-- A block extending the head of `rtA` but with unknown producer 9. -/
def bUnknown : Block := ⟨9, 102, 100, 180, [], true, false⟩

/-- A block extending the head of `rtA` produced by peer 2, whose
rotation index 1 is not (2 + 1) mod 3 = 0. -/
def bWrongIdx : Block := ⟨2, 103, 100, 180, [], true, false⟩

/-- A block equal to the current head of `rtA`: height 2 (timestamp 120)
and hash 100. -/
def bNoop : Block := ⟨1, 100, 100, 120, [], true, false⟩

/-- A block at height 3 whose parent hash 99 is not the head hash. -/
def bBadParent : Block := ⟨1, 104, 99, 180, [], true, false⟩

/-- A genesis block (hash 10) as decoded at load time. -/
def gA : Block := ⟨0, 10, 0, 0, [], true, true⟩

/-- First child of the genesis (hash 11, parent 10). -/
def b1A : Block := ⟨1, 11, 10, 60, [], true, false⟩

/-- A fork block: its parent is the genesis (hash 10), which has already
been loaded, but it does not extend the previously loaded `b1A`. -/
def b2A : Block := ⟨2, 12, 10, 61, [], true, false⟩

/-- A two-node main chain: genesis (height 0, hash 10) and its child
(height 1, hash 11), the head. -/
def nodeHead : BlockNode := .node 1 11 (.root 0 10)

/-! Section: Helper lemmas -/

/-- Decoding inverts encoding for any `uint32` value. -/
theorem beUint32_putUint32BE (n : Nat) (hn : n < 2 ^ 32) :
    beUint32 (putUint32BE n) = n := by
  simp only [putUint32BE, beUint32]
  omega

/-- Encoding is strictly monotone with respect to byte-wise
lexicographic order on `uint32` values. -/
theorem putUint32BE_lexLt (m n : Nat) (hmn : m < n) (hn : n < 2 ^ 32) :
    lexLt (putUint32BE m) (putUint32BE n) = true := by
  simp only [putUint32BE, lexLt, Bool.or_eq_true, Bool.and_eq_true,
    Bool.and_false, Bool.or_false, decide_eq_true_eq, beq_iff_eq]
  by_cases h₁ : m / 2 ^ 24 % 256 = n / 2 ^ 24 % 256
  · refine Or.inr ⟨h₁, ?_⟩
    by_cases h₂ : m / 2 ^ 16 % 256 = n / 2 ^ 16 % 256
    · refine Or.inr ⟨h₂, ?_⟩
      by_cases h₃ : m / 2 ^ 8 % 256 = n / 2 ^ 8 % 256
      · exact Or.inr ⟨h₃, by omega⟩
      · exact Or.inl (by omega)
    · exact Or.inl (by omega)
  · exact Or.inl (by omega)

/-! Section: C8 — height-key codec order and round-trip -/

/-- C8: the claim quantifies over every pair of `i32` heights, but for a
negative height the `uint32` reinterpretation wraps to the top of the
key space: `heightToKey (−1)` is `FF FF FF FF`, which is not
lexicographically smaller than `heightToKey 0 = 00 00 00 00` although
`−1 < 0`. -/
theorem heightToKey_not_lex_monotone_on_negatives :
    (-1 : Int) < 0 ∧ lexLt (heightToKey (-1)) (heightToKey 0) = false := by
  constructor
  · decide
  · rfl

/-- C8 (amended): for non-negative `i32` heights `h₁ < h₂` the keys are
lexicographically ordered, so bucket iteration visits non-negative
heights chronologically; and `keyToHeight` inverts `heightToKey` on the
whole `i32` range. -/
theorem heightToKey_lex_monotone_and_roundtrip :
    (∀ h₁ h₂ : Int, 0 ≤ h₁ → h₁ < h₂ → h₂ < 2 ^ 31 →
      lexLt (heightToKey h₁) (heightToKey h₂) = true) ∧
    (∀ h : Int, -(2 ^ 31) ≤ h → h < 2 ^ 31 →
      keyToHeight (heightToKey h) = h) := by
  constructor
  · intro h₁ h₂ hle hlt hub
    have e₁ : h₁ % (2 ^ 32 : Int) = h₁ := Int.emod_eq_of_lt (by omega) (by omega)
    have e₂ : h₂ % (2 ^ 32 : Int) = h₂ := Int.emod_eq_of_lt (by omega) (by omega)
    unfold heightToKey
    rw [e₁, e₂]
    exact putUint32BE_lexLt _ _ (by omega) (by omega)
  · intro h hlb hub
    unfold heightToKey keyToHeight
    rw [beUint32_putUint32BE ((h % (2 ^ 32 : Int)).toNat) (by omega)]
    split <;> omega

/-- C8 witness: the amended theorem applied at heights 3 < 7 and at the
negative height −5. -/
theorem heightToKey_lex_monotone_and_roundtrip_witness :
    lexLt (heightToKey 3) (heightToKey 7) = true ∧
    keyToHeight (heightToKey (-5)) = -5 :=
  ⟨heightToKey_lex_monotone_and_roundtrip.1 3 7 (by norm_num) (by norm_num)
      (by norm_num),
    heightToKey_lex_monotone_and_roundtrip.2 (-5) (by norm_num) (by norm_num)⟩

/-! Section: C4 — no-op on the already-accepted head, reject wrong parents -/

/-- C4: when the incoming block's timestamp-derived height equals the
head height and its hash equals the head hash, `CheckAndPushNewBlock`
returns a nil error, pushes nothing and leaves the head unchanged;
otherwise a block whose parent hash differs from the head hash is
rejected with `ErrInvalidBlock`, again pushing nothing and leaving the
head unchanged. -/
theorem CheckAndPushNewBlock_noop_and_parent (rt : RunTime) (b : Block)
    (qr : Option ChainErr) (po : Bool) :
    (rt.headHeight = heightFromTime rt b.timestamp ∧ rt.headHash = b.blockHash →
      CheckAndPushNewBlock rt b qr po = ⟨none, false, rt⟩) ∧
    (¬(rt.headHeight = heightFromTime rt b.timestamp ∧ rt.headHash = b.blockHash) →
      b.parentHash ≠ rt.headHash →
      CheckAndPushNewBlock rt b qr po = ⟨some .invalidBlock, false, rt⟩) := by
  constructor
  · intro hno
    simp [CheckAndPushNewBlock, hno.1, hno.2]
  · intro hno hpar
    simp [CheckAndPushNewBlock, hno, hpar]

/-- C4 witness: the theorem applied to the already-accepted head block
`bNoop` and to the wrong-parent block `bBadParent` of the three-peer
state `rtA`. -/
theorem CheckAndPushNewBlock_noop_and_parent_witness :
    CheckAndPushNewBlock rtA bNoop none true = ⟨none, false, rtA⟩ ∧
    CheckAndPushNewBlock rtA bBadParent none true =
      ⟨some .invalidBlock, false, rtA⟩ :=
  ⟨(CheckAndPushNewBlock_noop_and_parent rtA bNoop none true).1 (by decide),
    (CheckAndPushNewBlock_noop_and_parent rtA bBadParent none true).2
      (by decide) (by decide)⟩

/-! Section: C3 — producer rotation checks -/

/-- Helper: a found peer implies a non-empty peer list. -/
theorem findPeer_some_pos (l : List NodeID) (p : NodeID) (i : Nat)
    (h : findPeer l p = some i) : 0 < l.length := by
  cases l with
  | nil => simp [findPeer] at h
  | cons a t => simp

/-- C3: for a block that extends the current head (parent hash equals
head hash) and is not the already-accepted head block itself, an unknown
producer yields `ErrUnknownProducer`, a producer whose peer index is not
`(head.Height + 1) mod |peers|` yields `ErrInvalidProducer`, and the
block is pushed only when the producer sits exactly at that rotation
index. -/
theorem CheckAndPushNewBlock_producer_rotation (rt : RunTime) (b : Block)
    (qr : Option ChainErr) (po : Bool)
    (hpar : b.parentHash = rt.headHash)
    (hno : ¬(rt.headHeight = heightFromTime rt b.timestamp ∧
      rt.headHash = b.blockHash)) :
    (findPeer rt.peers b.producer = none →
      CheckAndPushNewBlock rt b qr po = ⟨some .unknownProducer, false, rt⟩) ∧
    (∀ i : Nat, findPeer rt.peers b.producer = some i →
      (i : Int) ≠ Int.tmod (rt.headHeight + 1) rt.peers.length →
      CheckAndPushNewBlock rt b qr po = ⟨some .invalidProducer, false, rt⟩) ∧
    ((CheckAndPushNewBlock rt b qr po).pushed = true →
      ∃ i : Nat, findPeer rt.peers b.producer = some i ∧
        (i : Int) = Int.tmod (rt.headHeight + 1) rt.peers.length) := by
  refine ⟨?_, ?_, ?_⟩
  · intro hf
    simp [CheckAndPushNewBlock, hno, hpar, hf]
  · intro i hf hne
    have hpos : (0 : Int) < rt.peers.length :=
      Int.ofNat_pos.mpr (findPeer_some_pos rt.peers b.producer i hf)
    simp [CheckAndPushNewBlock, hno, hpar, hf, hpos, hne]
  · intro hpush
    cases hf : findPeer rt.peers b.producer with
    | none => simp [CheckAndPushNewBlock, hno, hpar, hf] at hpush
    | some i =>
      have hpos : (0 : Int) < rt.peers.length :=
        Int.ofNat_pos.mpr (findPeer_some_pos rt.peers b.producer i hf)
      by_cases hi : (i : Int) = Int.tmod (rt.headHeight + 1) rt.peers.length
      · exact ⟨i, hf ▸ rfl, hi⟩
      · simp [CheckAndPushNewBlock, hno, hpar, hf, hpos, hi] at hpush

/-- C3 witness: the theorem applied to the unknown-producer block
`bUnknown`, the wrong-rotation block `bWrongIdx` (peer 2 at index 1,
rotation index 0) and the accepted block `bGood` of state `rtA`. -/
theorem CheckAndPushNewBlock_producer_rotation_witness :
    CheckAndPushNewBlock rtA bUnknown none true =
      ⟨some .unknownProducer, false, rtA⟩ ∧
    CheckAndPushNewBlock rtA bWrongIdx none true =
      ⟨some .invalidProducer, false, rtA⟩ ∧
    ∃ i : Nat, findPeer rtA.peers bGood.producer = some i ∧
      (i : Int) = Int.tmod (rtA.headHeight + 1) rtA.peers.length :=
  ⟨(CheckAndPushNewBlock_producer_rotation rtA bUnknown none true (by decide)
      (by decide)).1 (by decide),
    (CheckAndPushNewBlock_producer_rotation rtA bWrongIdx none true (by decide)
      (by decide)).2.1 1 (by decide) (by decide),
    (CheckAndPushNewBlock_producer_rotation rtA bGood none true (by decide)
      (by decide)).2.2 (by decide)⟩

/-! Section: C9 — empty peer list -/

/-- C9 counterexample: with an empty peer list, re-sending the block that
already is the current head makes `CheckAndPushNewBlock` return a nil
error (the already-accepted no-op branch), so the call does not return an
error on every incoming block as claimed — although it still accepts
nothing. -/
theorem CheckAndPushNewBlock_emptyPeers_counterexample :
    rtEmpty.peers = [] ∧
    (CheckAndPushNewBlock rtEmpty bNoop none true).err = none ∧
    (CheckAndPushNewBlock rtEmpty bNoop none true).pushed = false := by
  decide

/-- C9 (amended): with an empty peer list, `CheckAndPushNewBlock` never
panics — the rotation index is guarded and set to −1 when `|peers| = 0` —
never accepts the block and leaves the head unchanged; every call returns
an error except for a block already equal to the current head, which
returns a nil error without change. -/
theorem CheckAndPushNewBlock_emptyPeers (rt : RunTime) (b : Block)
    (qr : Option ChainErr) (po : Bool) (hp : rt.peers = []) :
    (CheckAndPushNewBlock rt b qr po).pushed = false ∧
    (CheckAndPushNewBlock rt b qr po).rt = rt ∧
    ((CheckAndPushNewBlock rt b qr po).err = none →
      rt.headHeight = heightFromTime rt b.timestamp ∧
      rt.headHash = b.blockHash) := by
  by_cases hno : rt.headHeight = heightFromTime rt b.timestamp ∧
      rt.headHash = b.blockHash
  · simp [CheckAndPushNewBlock, hno.1, hno.2]
  · by_cases hpar : b.parentHash = rt.headHash
    · simp [CheckAndPushNewBlock, hno, hpar, hp, findPeer]
    · simp [CheckAndPushNewBlock, hno, hpar]

/-- C9 witness: the amended theorem applied to the empty-peer state
`rtEmpty` and the wrong-parent block `bBadParent`. -/
theorem CheckAndPushNewBlock_emptyPeers_witness :
    (CheckAndPushNewBlock rtEmpty bBadParent none true).pushed = false ∧
    (CheckAndPushNewBlock rtEmpty bBadParent none true).rt = rtEmpty ∧
    ((CheckAndPushNewBlock rtEmpty bBadParent none true).err = none →
      rtEmpty.headHeight = heightFromTime rtEmpty bBadParent.timestamp ∧
      rtEmpty.headHash = bBadParent.blockHash) :=
  CheckAndPushNewBlock_emptyPeers rtEmpty bBadParent none true (by decide)

/-! Section: C2 — head height is monotonically non-decreasing -/

/-- Helper: a single chain step preserves the turn invariant and never
lowers the head height. -/
theorem chainStep_preserves (s s' : RtTurnSt) (h : ChainStep s s')
    (hinv : turnInv s) : turnInv s' ∧ s.headHeight ≤ s'.headHeight := by
  cases h with
  | push =>
    refine ⟨?_, ?_⟩
    · show s.nextTurn - 1 ≤ s.nextTurn - 1
      omega
    · show s.headHeight ≤ s.nextTurn - 1
      exact hinv
  | advance =>
    refine ⟨?_, ?_⟩
    · show s.headHeight ≤ s.nextTurn + 1 - 1
      have hh : s.headHeight ≤ s.nextTurn - 1 := hinv
      omega
    · exact le_refl _

/-- C2: along every execution of the chain — every sequence of
`processBlocks` pushes (own-producer direct pushes and
`CheckAndPushNewBlock` pushes, both gated on the block height being
`nextTurn − 1`) and `setNextTurn` advances — starting from a state
satisfying the construction invariant `head.height ≤ next_turn − 1`, the
recorded head height never decreases. -/
theorem headHeight_monotone (s s' : RtTurnSt) (hinv : turnInv s)
    (h : Relation.ReflTransGen ChainStep s s') :
    s.headHeight ≤ s'.headHeight := by
  have key : turnInv s' ∧ s.headHeight ≤ s'.headHeight := by
    induction h with
    | refl => exact ⟨hinv, le_refl _⟩
    | tail hab hbc ih =>
      obtain ⟨ib, mb⟩ := ih
      obtain ⟨ic, mc⟩ := chainStep_preserves _ _ hbc ib
      exact ⟨ic, le_trans mb mc⟩
  exact key.2

/-- C2 witness: the theorem applied to the two-step trace
`⟨0, 1⟩ → advance → ⟨0, 2⟩ → push → ⟨1, 2⟩` from the freshly constructed
state (head height 0, next turn 1). -/
theorem headHeight_monotone_witness :
    turnInv ⟨0, 1⟩ ∧
    (⟨0, 1⟩ : RtTurnSt).headHeight ≤ (⟨1, 2⟩ : RtTurnSt).headHeight :=
  ⟨by unfold turnInv; norm_num,
    headHeight_monotone ⟨0, 1⟩ ⟨1, 2⟩ (by unfold turnInv; norm_num)
      (Relation.ReflTransGen.tail
        (Relation.ReflTransGen.single (ChainStep.advance ⟨0, 1⟩))
        (ChainStep.push ⟨0, 2⟩))⟩

/-! Section: C5 — TTL-expired acks are rejected unpersisted -/

/-- C5: an ack whose embedded response timestamp maps to a height lower
than `head.height − queryTTL` is rejected by `VerifyAndPushAckedQuery`
with `ErrQueryExpired`, and both the store and the in-memory query index
are returned unchanged. -/
theorem VerifyAndPushAckedQuery_expired (rt : RunTime) (st : BlockStore)
    (qi : QueryIndex) (ack : SignedAckHeader)
    (hexp : heightFromTime rt ack.resp.timestamp < rt.headHeight - rt.queryTTL) :
    VerifyAndPushAckedQuery rt st qi ack = ⟨some .queryExpired, st, qi⟩ := by
  simp [VerifyAndPushAckedQuery, queryTimeIsExpired, hexp]

/-- C5 witness: the theorem applied to the ack `ackExp`, whose response
timestamp −541 maps to height −9 while `rtA` has
`head.height − queryTTL = −8`. -/
theorem VerifyAndPushAckedQuery_expired_witness :
    VerifyAndPushAckedQuery rtA stA1 qi0 ackExp = ⟨some .queryExpired, stA1, qi0⟩ :=
  VerifyAndPushAckedQuery_expired rtA stA1 qi0 ackExp (by decide)

/-! Section: C10 — absent blocks fetch as nil block, nil error -/

/-- Helper: when no node on the main-chain path has the requested
height, the ancestor walk returns nothing. -/
theorem ancestor_eq_none (n : BlockNode) (h : Int)
    (hh : n.hasHeight h = false) : n.ancestor h = none := by
  induction n with
  | root ht k =>
    simp [BlockNode.hasHeight] at hh
    simp [BlockNode.ancestor, hh]
  | node ht k p ih =>
    simp [BlockNode.hasHeight] at hh
    simp [BlockNode.ancestor, hh.1, ih hh.2]

/-- C10: for a height with no block on the main-chain path from the
current head — in particular any height above the head height —
`Chain.FetchBlock` returns a nil block together with a nil error; the
absence of a block is not an error and the store is not consulted. -/
theorem FetchBlock_absent (headNode : BlockNode)
    (blockIndexDisk : List (Hash × Option Block)) (height : Int)
    (habs : headNode.hasHeight height = false) :
    FetchBlock headNode blockIndexDisk height = (none, none) := by
  unfold FetchBlock
  rw [ancestor_eq_none headNode height habs]

/-- C10 witness: the theorem applied to the two-node chain `nodeHead`
(heights 0 and 1) at the absent height 5, which is above the head. -/
theorem FetchBlock_absent_witness :
    FetchBlock nodeHead [] 5 = (none, none) :=
  FetchBlock_absent nodeHead [] 5 (by decide)

/-! Section: C6 — memory index versus disk after query pushes -/

/-- Helper: looking up the key just written returns the written value. -/
theorem assocGet_assocPut_self {α β : Type} [DecidableEq α]
    (l : List (α × β)) (k : α) (v : β) :
    assocGet (assocPut l k v) k = some v := by
  induction l with
  | nil => simp [assocGet, assocPut]
  | cons hd tl ih =>
    obtain ⟨k₁, v₁⟩ := hd
    by_cases hk : k₁ = k
    · simp [assocGet, assocPut, hk]
    · simp [assocGet, assocPut, hk, ih]

/-- Helper: a successful response-index `Put` wrote the given value. -/
theorem respPut_ok (b : List (Hash × RSlot)) (k : Hash)
    (v : Option SignedResponseHeader) (l : List (Hash × RSlot))
    (h : respPut b k v = .ok l) : l = assocPut b k (.val v) := by
  unfold respPut at h
  cases hg : assocGet b k with
  | none => rw [hg] at h; exact (Except.ok.inj h).symm
  | some s =>
    cases s with
    | val enc => rw [hg] at h; exact (Except.ok.inj h).symm
    | subBucket => rw [hg] at h; simp at h

/-- Helper: a failed response-index `Put` failed with
`ErrIncompatibleValue` on a key occupied by a nested bucket. -/
theorem respPut_error (b : List (Hash × RSlot)) (k : Hash)
    (v : Option SignedResponseHeader) (e : ChainErr)
    (h : respPut b k v = .error e) :
    e = .incompatibleValue ∧ assocGet b k = some .subBucket := by
  unfold respPut at h
  cases hg : assocGet b k with
  | none => rw [hg] at h; simp at h
  | some s =>
    cases s with
    | val enc => rw [hg] at h; simp at h
    | subBucket => rw [hg] at h; exact ⟨(Except.error.inj h).symm, rfl⟩

/-- Helper: a successful ack-index `Put` wrote the given value. -/
theorem ackPut_ok (b : List (Hash × ASlot)) (k : Hash)
    (v : Option SignedAckHeader) (l : List (Hash × ASlot))
    (h : ackPut b k v = .ok l) : l = assocPut b k (.val v) := by
  unfold ackPut at h
  cases hg : assocGet b k with
  | none => rw [hg] at h; exact (Except.ok.inj h).symm
  | some s =>
    cases s with
    | val enc => rw [hg] at h; exact (Except.ok.inj h).symm
    | subBucket => rw [hg] at h; simp at h

/-- Helper: a failed ack-index `Put` failed with `ErrIncompatibleValue`
on a key occupied by a nested bucket. -/
theorem ackPut_error (b : List (Hash × ASlot)) (k : Hash)
    (v : Option SignedAckHeader) (e : ChainErr)
    (h : ackPut b k v = .error e) :
    e = .incompatibleValue ∧ assocGet b k = some .subBucket := by
  unfold ackPut at h
  cases hg : assocGet b k with
  | none => rw [hg] at h; simp at h
  | some s =>
    cases s with
    | val enc => rw [hg] at h; simp at h
    | subBucket => rw [hg] at h; exact ⟨(Except.error.inj h).symm, rfl⟩

/-- C6 counterexample: when the ack-index key of the pushed ack is
occupied by a nested bucket, the disk `Put` fails with
`bolt.ErrIncompatibleValue`, yet `pushAckedQuery` — by its
`err != bolt.ErrIncompatibleValue` guard — continues, adds the ack to
the in-memory QueryIndex and returns a nil error: the QueryIndex then
holds an ack that is not persisted on disk, refuting the claim. -/
theorem pushAckedQuery_orphan_memory_counterexample :
    (pushAckedQuery rtA stB qi0 ackB).err = none ∧
    (0, ackB) ∈ (pushAckedQuery rtA stB qi0 ackB).qi.acks ∧
    ackOnDisk (pushAckedQuery rtA stB qi0 ackB).st 0 ackB = false := by
  decide

/-- C6 (amended): a query push that returns an error leaves the
in-memory QueryIndex (and the store) unchanged, and a successful
`pushResponedQuery` always leaves the response persisted on disk; a
successful `pushAckedQuery` leaves the ack persisted on disk except when
the ack-index key was occupied by an incompatible nested bucket — the
`ErrIncompatibleValue` tolerance — in which case the memory index holds
an unpersisted ack. -/
theorem pushQueries_memory_disk (rt : RunTime) (st : BlockStore)
    (qi : QueryIndex) (resp : SignedResponseHeader) (ack : SignedAckHeader) :
    ((pushResponedQuery rt st qi resp).err.isSome = true →
      (pushResponedQuery rt st qi resp).st = st ∧
      (pushResponedQuery rt st qi resp).qi = qi) ∧
    ((pushResponedQuery rt st qi resp).err = none →
      respOnDisk (pushResponedQuery rt st qi resp).st
        (heightFromTime rt resp.reqTimestamp) resp = true) ∧
    ((pushAckedQuery rt st qi ack).err.isSome = true →
      (pushAckedQuery rt st qi ack).st = st ∧
      (pushAckedQuery rt st qi ack).qi = qi) ∧
    ((pushAckedQuery rt st qi ack).err = none →
      ackOnDisk (pushAckedQuery rt st qi ack).st
        (heightFromTime rt ack.resp.timestamp) ack = true ∨
      ackSlotAt st (heightFromTime rt ack.resp.timestamp) ack.headerHash =
        some .subBucket) := by
  refine ⟨?_, ?_, ?_, ?_⟩
  all_goals simp only [pushResponedQuery, pushAckedQuery]
  case _ =>
    cases hp : respPut (ensureHeight st (heightFromTime rt resp.reqTimestamp)).2.respIndex
        resp.headerHash (some resp) with
    | error e => intro _; exact ⟨rfl, rfl⟩
    | ok newIdx => intro hs; simp at hs
  case _ =>
    cases hp : respPut (ensureHeight st (heightFromTime rt resp.reqTimestamp)).2.respIndex
        resp.headerHash (some resp) with
    | error e => intro hn; simp at hn
    | ok newIdx =>
      intro _
      have hn := respPut_ok _ _ _ _ hp
      subst hn
      simp [respOnDisk, setHeightBucket, assocGet_assocPut_self]
  case _ =>
    cases hp : ackPut (ensureHeight st (heightFromTime rt ack.resp.timestamp)).2.ackIndex
        ack.headerHash (some ack) with
    | error e =>
      obtain ⟨he, _⟩ := ackPut_error _ _ _ _ hp
      subst he
      intro hs
      simp at hs
    | ok newIdx => intro hs; simp at hs
  case _ =>
    cases hp : ackPut (ensureHeight st (heightFromTime rt ack.resp.timestamp)).2.ackIndex
        ack.headerHash (some ack) with
    | error e =>
      obtain ⟨he, hsb⟩ := ackPut_error _ _ _ _ hp
      subst he
      intro _
      right
      unfold ackSlotAt
      cases hg : assocGet st.heights (heightFromTime rt ack.resp.timestamp) with
      | none =>
        simp only [ensureHeight, hg] at hsb
        simp [assocGet] at hsb
      | some hb =>
        simp only [ensureHeight, hg] at hsb
        simpa using hsb
    | ok newIdx =>
      intro _
      left
      have hn := ackPut_ok _ _ _ _ hp
      subst hn
      simp [ackOnDisk, setHeightBucket, assocGet_assocPut_self]

/-- C6 witness: the amended theorem applied to the error path of
`pushResponedQuery` (response-index key occupied by a nested bucket in
`stC`: the transaction rolls back, store and memory are unchanged) and
to the `ErrIncompatibleValue` path of `pushAckedQuery` on `stB`. -/
theorem pushQueries_memory_disk_witness :
    ((pushResponedQuery rtA stC qi0 respC).st = stC ∧
      (pushResponedQuery rtA stC qi0 respC).qi = qi0) ∧
    (ackOnDisk (pushAckedQuery rtA stB qi0 ackB).st
        (heightFromTime rtA ackB.resp.timestamp) ackB = true ∨
      ackSlotAt stB (heightFromTime rtA ackB.resp.timestamp) ackB.headerHash =
        some .subBucket) :=
  ⟨(pushQueries_memory_disk rtA stC qi0 respC ackB).1 (by decide),
    (pushQueries_memory_disk rtA stB qi0 respC ackB).2.2.2 (by decide)⟩

/-! Section: C1 — FetchAckedQuery cannot recover a stored ack -/

/-- C1: evaluation at the failing input.  The ack `ackA` is persisted
under the on-disk ack-index at height 3 with a valid encoding and is
absent from the in-memory query index, yet `FetchAckedQuery 3 7` returns
a nil ack and a nil error instead of the stored ack: the source assigns
`ack = dec` only inside the `if err != nil` branch of `UnmarshalBinary`,
so a successful decode is dropped. -/
theorem FetchAckedQuery_misses_stored_ack :
    ackOnDisk stA1 3 ackA = true ∧
    QueryIndex.getAck qi0 3 7 = none ∧
    FetchAckedQuery rtA stA1 qi0 3 7 = (none, none) := by
  decide

/-! Section: C7 — LoadChain rejects forks whose parent is loaded -/

/-- C7: evaluation at the failing input.  Loading genesis `gA`, its
child `b1A` and then the fork block `b2A` whose parent is the
already-loaded genesis fails with `ErrParentNotFound`: the source looks
up `block.SignedHeader.BlockHash` — the block's own hash — instead of
its parent hash, and never inserts the loaded nodes into the in-memory
block index, so the fork lookup can never succeed. -/
theorem loadChainBlocks_fork_fails :
    b2A.parentHash = gA.blockHash ∧
    loadChainBlocks [gA, b1A, b2A] = .error .parentNotFound :=
  ⟨rfl, rfl⟩

end SQLChain
